import Mathlib

/-!
sfizz: filter effect, low-pass-4-pole kernel and SIMD fallbacks.

A shallow embedding of

* `src/sfizz/effects/Filter.cpp` (`sfz::fx::Filter`),
* `src/sfizz/gen/filters/sfzLpf4p.cxx` (`faustLpf4p`),
* `sources/SIMDDummy.cpp` (the `<float, true>` kernel specialisations),

followed by the properties established about them.

Sample values (`float` / `double` in the C++) are read in exact arithmetic:
every definition is generic in the number type `R`, so it can be run on `ℚ`
and reasoned about on `ℝ`.  Rounding, NaN and infinities are outside the model.
Functions of the C++ standard library (`std::exp`, `std::sin`, `std::cos`,
`std::pow`) and collaborators whose code lies outside the three embedded files are
explicit parameters.
-/

namespace sfz

/-! ## Types declared outside the embedded files -/

/-- Modelled from the spec: the enumerated filter type (`FilterType` of the
cascade's header, which is not embedded here).  The spec names the no-op type and the
low-pass-4-pole topology "and other supported topologies". -/
inductive FilterType where
  | kFilterNone
  | kFilterLpf4p
  | kFilterOther (tag : Nat)
  deriving DecidableEq, Repr

/-- Modelled from the spec: an opcode is a key/value pair "with a precomputed
hash of the key's letters-only portion" (`Opcode.h` is not embedded here). -/
structure Opcode where
  opcode : String
  value : String
  lettersOnlyHash : Nat
  deriving DecidableEq, Repr

/-- Modelled from the spec: a closed range of valid values (`Range.h` is not
embedded here); `stop` is its upper end. -/
structure Range (R : Type) where
  start : R
  stop : R

/-- Modelled from the spec: "clamped to a valid range". -/
def Range.clamp {R : Type} [LinearOrder R] (r : Range R) (v : R) : R :=
  max r.start (min v r.stop)

/-- Membership of a value in a range, both ends included. -/
def Range.containsWithEnd {R : Type} [LinearOrder R] (r : Range R) (v : R) : Prop :=
  r.start ≤ v ∧ v ≤ r.stop

instance {R : Type} [LinearOrder R] (r : Range R) (v : R) :
    Decidable (r.containsWithEnd v) :=
  inferInstanceAs (Decidable (r.start ≤ v ∧ v ≤ r.stop))

namespace fx

/-- The filter description (`FilterDescription` of `Filter.h`): type, cutoff,
resonance and gain. -/
structure FilterDescription (R : Type) where
  type : FilterType
  cutoff : R
  resonance : R
  gain : R
  deriving DecidableEq, Repr

/-- What `Filter::makeInstance` uses and the embedded files do not define: the
compile-time key hash `hash`, `sfz::Filter::typeFromName`, the reading of a
number out of an opcode value, the three `Default::filter*Range` constants and
the default-constructed `FilterDescription`. -/
structure Env (R : Type) where
  hash : String → Nat
  typeFromName : String → Option FilterType
  readValue : String → Option R
  filterCutoffRange : Range R
  filterResonanceRange : Range R
  filterGainRange : Range R
  description : FilterDescription R

/-- The four `case` labels of the `switch` in `Filter::makeInstance` are
pairwise different: C++ rejects a `switch` with two equal labels. -/
def Env.caseLabelsDistinct {R : Type} (E : Env R) : Prop :=
  [E.hash "filter_cutoff", E.hash "filter_resonance", E.hash "filter_type",
    E.hash "sfizz:filter_gain"].Nodup

instance {R : Type} (E : Env R) : Decidable E.caseLabelsDistinct :=
  inferInstanceAs (Decidable (List.Nodup _))

/-- Modelled from the spec: `setValueFromOpcode` (`Opcode.h`, not among the
sources).  A value that reads as a number is "clamped to a valid range" and
stored; otherwise the target keeps its value. -/
def setValueFromOpcode {R : Type} [LinearOrder R] (readValue : String → Option R)
    (opc : Opcode) (target : R) (validRange : Range R) : R :=
  match readValue opc.value with
  | some v => validRange.clamp v
  | none => target

/-- The body of the loop of `Filter::makeInstance` (Filter.cpp, lines 73-95):
the `switch` on `opc.lettersOnlyHash`, with no `default` case. -/
def makeInstanceStep {R : Type} [LinearOrder R] (E : Env R)
    (desc : FilterDescription R) (opc : Opcode) : FilterDescription R :=
  if opc.lettersOnlyHash = E.hash "filter_cutoff" then
    { desc with cutoff := setValueFromOpcode E.readValue opc desc.cutoff E.filterCutoffRange }
  else if opc.lettersOnlyHash = E.hash "filter_resonance" then
    { desc with
      resonance := setValueFromOpcode E.readValue opc desc.resonance E.filterResonanceRange }
  else if opc.lettersOnlyHash = E.hash "filter_type" then
    match E.typeFromName opc.value with
    | some ftype => { desc with type := ftype }
    | none => { desc with type := FilterType.kFilterNone }
  else if opc.lettersOnlyHash = E.hash "sfizz:filter_gain" then
    { desc with gain := setValueFromOpcode E.readValue opc desc.gain E.filterGainRange }
  else
    desc

/-- The description `Filter::makeInstance` builds (Filter.cpp, lines 70-96):
a default `FilterDescription` updated by every opcode in turn. -/
def makeInstanceDesc {R : Type} [LinearOrder R] (E : Env R) (members : List Opcode) :
    FilterDescription R :=
  members.foldl (makeInstanceStep E) E.description

/-- The keys `Filter::makeInstance` has a `case` for. -/
def recognisedKey {R : Type} (E : Env R) (opc : Opcode) : Bool :=
  decide (opc.lettersOnlyHash = E.hash "filter_cutoff")
    || decide (opc.lettersOnlyHash = E.hash "filter_resonance")
    || decide (opc.lettersOnlyHash = E.hash "filter_type")
    || decide (opc.lettersOnlyHash = E.hash "sfizz:filter_gain")

/-- The three numeric fields of a description lie in their ranges. -/
def inRanges {R : Type} [LinearOrder R] (E : Env R) (desc : FilterDescription R) : Prop :=
  E.filterCutoffRange.containsWithEnd desc.cutoff
    ∧ E.filterResonanceRange.containsWithEnd desc.resonance
    ∧ E.filterGainRange.containsWithEnd desc.gain

instance {R : Type} [LinearOrder R] (E : Env R) (desc : FilterDescription R) : Decidable (inRanges E desc) :=
  inferInstanceAs (Decidable (_ ∧ _ ∧ _))

/-- The three ranges are not empty: their start is not above their end. -/
def Env.rangesOrdered {R : Type} [LinearOrder R] (E : Env R) : Prop :=
  E.filterCutoffRange.start ≤ E.filterCutoffRange.stop
    ∧ E.filterResonanceRange.start ≤ E.filterResonanceRange.stop
    ∧ E.filterGainRange.start ≤ E.filterGainRange.stop

instance {R : Type} [LinearOrder R] (E : Env R) : Decidable E.rangesOrdered :=
  inferInstanceAs (Decidable (_ ∧ _ ∧ _))

/-- The interface of the cascade `sfz::Filter` (member `_filter`), whose code is
not embedded here: its state type `σ`, a default-constructed state and the
operations `Filter.cpp` calls.  Channel pointer arrays are read as
channel → frame → sample. -/
structure Cascade (σ R : Type) where
  fresh : σ
  setType : σ → FilterType → σ
  setChannels : σ → Nat → σ
  init : σ → R → σ
  clear : σ → σ
  prepare : σ → R → R → R → σ
  processModulated : σ → (Nat → Nat → R) → (Nat → Nat → R) →
    List R → List R → List R → Nat → σ × (Nat → Nat → R)

/-- Modelled from the spec: the scratch buffer (`AudioBuffer<float, 3>`, not
embedded here): `numFrames` samples per channel, addressed
channel → frame → sample. -/
structure AudioBuffer (R : Type) where
  numFrames : Nat
  samples : Nat → Nat → R

/-- Modelled from the spec: `getSpan(channelIndex)` "returns a span over that
channel's samples"; the span is read as the list of its elements. -/
def AudioBuffer.getSpan {R : Type} (b : AudioBuffer R) (channelIndex : Nat) : List R :=
  (List.range b.numFrames).map (b.samples channelIndex)

/-- Writing the elements of a span over the start of a channel back into the
buffer (a span is a view of the buffer's storage). -/
def AudioBuffer.store {R : Type} (b : AudioBuffer R) (channelIndex : Nat) (span : List R) :
    AudioBuffer R :=
  { b with
    samples := fun ch i =>
      if ch = channelIndex then (span.get? i).getD (b.samples ch i) else b.samples ch i }

/-- The call `absl::Span::first(len)`: the first `len` elements, defined only
for `len` not larger than the span. -/
def Span.first {R : Type} (s : List R) (len : Nat) : Option (List R) :=
  if len ≤ s.length then some (s.take len) else none

/-- Modelled from the spec: `fill(output, value)`: "every element of `output`
set to `value`" (`SIMDHelpers.h` is not embedded here). -/
def fill {R : Type} (output : List R) (value : R) : List R :=
  output.map (fun _ => value)

/-- The state of an `sfz::fx::Filter`. -/
structure Filter (σ R : Type) where
  _desc : FilterDescription R
  _filter : σ
  _tempBuffer : AudioBuffer R

/-- The constructor `Filter::Filter(desc)` (Filter.cpp, lines 31-36);
`tempBuffer` is the default-constructed scratch buffer. -/
def Filter.construct {σ R : Type} (C : Cascade σ R) (tempBuffer : AudioBuffer R)
    (desc : FilterDescription R) : Filter σ R :=
  { _desc := desc
    _filter := C.setChannels (C.setType C.fresh desc.type) 2
    _tempBuffer := tempBuffer }

/-- The method `Filter::prepareFilter` (Filter.cpp, lines 101-104). -/
def Filter.prepareFilter {σ R : Type} (C : Cascade σ R) (f : Filter σ R) : Filter σ R :=
  { f with _filter := C.prepare f._filter f._desc.cutoff f._desc.resonance f._desc.gain }

/-- The method `Filter::setSampleRate` (Filter.cpp, lines 38-42). -/
def Filter.setSampleRate {σ R : Type} (C : Cascade σ R) (f : Filter σ R) (sampleRate : R) :
    Filter σ R :=
  Filter.prepareFilter C { f with _filter := C.init f._filter sampleRate }

/-- The method `Filter::clear` (Filter.cpp, lines 49-53). -/
def Filter.clear {σ R : Type} (C : Cascade σ R) (f : Filter σ R) : Filter σ R :=
  Filter.prepareFilter C { f with _filter := C.clear f._filter }

/-- The three modulation spans `Filter::process` fills (Filter.cpp, lines
57-63): cutoff, Q and peak/shelf gain, in this order. -/
def Filter.modulationSpans {σ R : Type} (f : Filter σ R) (nframes : Nat) :
    Option (List R × List R × List R) := do
  let cutoff ← Span.first (f._tempBuffer.getSpan 0) nframes
  let q ← Span.first (f._tempBuffer.getSpan 1) nframes
  let pksh ← Span.first (f._tempBuffer.getSpan 2) nframes
  pure (fill cutoff f._desc.cutoff, fill q f._desc.resonance, fill pksh f._desc.gain)

/-- The method `Filter::process` (Filter.cpp, lines 55-66): the new state of the
effect and the output channels. -/
def Filter.process {σ R : Type} (C : Cascade σ R) (f : Filter σ R)
    (inputs outputs : Nat → Nat → R) (nframes : Nat) :
    Option (Filter σ R × (Nat → Nat → R)) := do
  let (cutoff, q, pksh) ← f.modulationSpans nframes
  let r := C.processModulated f._filter inputs outputs cutoff q pksh nframes
  pure ({ f with
          _filter := r.1
          _tempBuffer := ((f._tempBuffer.store 0 cutoff).store 1 q).store 2 pksh }, r.2)

/-- The factory `Filter::makeInstance` (Filter.cpp, lines 68-99). -/
def Filter.makeInstance {σ R : Type} [LinearOrder R] (E : Env R) (C : Cascade σ R)
    (tempBuffer : AudioBuffer R) (members : List Opcode) : Filter σ R :=
  Filter.construct C tempBuffer (makeInstanceDesc E members)

end fx

/-! ## The generated low-pass-4-pole kernel (`sfzLpf4p.cxx`) -/

/-- The functions of `<cmath>` the generated kernel calls. -/
structure CMath (R : Type) where
  exp : R → R
  sin : R → R
  cos : R → R
  pow : R → R → R

/-- The data members of class `faustLpf4p` (sfzLpf4p.cxx, lines 34-45). -/
structure faustLpf4p (R : Type) where
  fSampleRate : Int
  fConst0 : R
  fConst1 : R
  fCutoff : R
  fQ : R
  fConst2 : R
  fRec0 : Fin 2 → R
  fRec3 : Fin 2 → R
  fRec4 : Fin 2 → R
  fRec2 : Fin 3 → R
  fRec5 : Fin 2 → R
  fRec1 : Fin 3 → R

namespace faustLpf4p

variable {R : Type} [LinearOrderedField R]

/-- The literal `6.2831853071795862` of `instanceConstants`. -/
def twoPi : R := 6.2831853071795862

/-- The method `instanceConstants` (sfzLpf4p.cxx, lines 90-95). -/
def instanceConstants (M : CMath R) (s : faustLpf4p R) (sample_rate : Int) : faustLpf4p R :=
  let s := { s with fSampleRate := sample_rate }
  let s := { s with fConst0 := min 192000 (max 1 (s.fSampleRate : R)) }
  let s := { s with fConst1 := twoPi / s.fConst0 }
  { s with fConst2 := M.exp (0 - 1000 / s.fConst0) }

/-- The method `instanceResetUserInterface` (sfzLpf4p.cxx, lines 97-100). -/
def instanceResetUserInterface (s : faustLpf4p R) : faustLpf4p R :=
  let s := { s with fCutoff := 440 }
  { s with fQ := 0 }

/-- One clearing loop of `instanceClear`:
`for (int l = 0; l < n; l = l + 1) rec[l] = 0.0;`. -/
def clearLoop {n : Nat} (rec : Fin n → R) : Fin n → R :=
  (List.finRange n).foldl (fun r l => Function.update r l 0) rec

/-- The method `instanceClear` (sfzLpf4p.cxx, lines 102-121). -/
def instanceClear (s : faustLpf4p R) : faustLpf4p R :=
  let s := { s with fRec0 := clearLoop s.fRec0 }
  let s := { s with fRec3 := clearLoop s.fRec3 }
  let s := { s with fRec4 := clearLoop s.fRec4 }
  let s := { s with fRec2 := clearLoop s.fRec2 }
  let s := { s with fRec5 := clearLoop s.fRec5 }
  { s with fRec1 := clearLoop s.fRec1 }

/-- The method `instanceInit` (sfzLpf4p.cxx, lines 127-131). -/
def instanceInit (M : CMath R) (s : faustLpf4p R) (sample_rate : Int) : faustLpf4p R :=
  instanceClear (instanceResetUserInterface (instanceConstants M s sample_rate))

/-- The method `init` (sfzLpf4p.cxx, lines 123-126); `classInit` has an empty
body. -/
def init (M : CMath R) (s : faustLpf4p R) (sample_rate : Int) : faustLpf4p R :=
  instanceInit M s sample_rate

/-- The local `fSlow0` of `compute` (line 147). -/
def fSlow0 (s : faustLpf4p R) : R :=
  s.fConst1 * max 0 s.fCutoff

/-- The local `fSlow1` of `compute` (line 148). -/
def fSlow1 (M : CMath R) (s : faustLpf4p R) : R :=
  M.cos (fSlow0 s)

/-- The inner divisor of line 149: `std::max<double>(0.001, std::pow(10.0, ...))`. -/
def qDivisor (M : CMath R) (s : faustLpf4p R) : R :=
  max 0.001 (M.pow 10 (0.050000000000000003 * s.fQ))

/-- The local `fSlow2` of `compute` (line 149). -/
def fSlow2 (M : CMath R) (s : faustLpf4p R) : R :=
  0.5 * (M.sin (fSlow0 s) / qDivisor M s)

/-- The local `fSlow3` of `compute` (line 150). -/
def fSlow3 (M : CMath R) (s : faustLpf4p R) : R :=
  fSlow2 M s + 1

/-- The local `fSlow4` of `compute` (line 151). -/
def fSlow4 (M : CMath R) (s : faustLpf4p R) : R :=
  (1 - fSlow1 M s) / fSlow3 M s

/-- The local `fSlow5` of `compute` (line 152); `fSmoothEnable` is a member of
the base class `sfzFilterDsp`. -/
def fSlow5 (s : faustLpf4p R) (fSmoothEnable : Bool) : R :=
  if fSmoothEnable then s.fConst2 else 0

/-- The local `fSlow6` of `compute` (line 153). -/
def fSlow6 (s : faustLpf4p R) (fSmoothEnable : Bool) : R :=
  1 - fSlow5 s fSmoothEnable

/-- The local `fSlow7` of `compute` (line 154). -/
def fSlow7 (M : CMath R) (s : faustLpf4p R) (fSmoothEnable : Bool) : R :=
  fSlow4 M s * fSlow6 s fSmoothEnable

/-- The local `fSlow8` of `compute` (line 155). -/
def fSlow8 (M : CMath R) (s : faustLpf4p R) (fSmoothEnable : Bool) : R :=
  ((0 - 2 * fSlow1 M s) / fSlow3 M s) * fSlow6 s fSmoothEnable

/-- The local `fSlow9` of `compute` (line 156). -/
def fSlow9 (M : CMath R) (s : faustLpf4p R) (fSmoothEnable : Bool) : R :=
  ((1 - fSlow2 M s) / fSlow3 M s) * fSlow6 s fSmoothEnable

/-- The local `fSlow10` of `compute` (line 157). -/
def fSlow10 (M : CMath R) (s : faustLpf4p R) (fSmoothEnable : Bool) : R :=
  (0.5 * fSlow4 M s) * fSlow6 s fSmoothEnable

/-- The body of the sample loop of `compute` (lines 159-174) for frame `i`,
given the loop-invariant coefficients; `st` is the kernel state together with
the memory `output0` points to. -/
def computeFrame (k5 k7 k8 k9 k10 : R) (input0 : Nat → R)
    (st : faustLpf4p R × (Nat → R)) (i : Nat) : faustLpf4p R × (Nat → R) :=
  let s := st.1
  let output0 := st.2
  let fTemp0 := input0 i
  let s := { s with fRec0 := Function.update s.fRec0 0 (k7 + k5 * s.fRec0 1) }
  let s := { s with fRec3 := Function.update s.fRec3 0 (k5 * s.fRec3 1 + k8) }
  let s := { s with fRec4 := Function.update s.fRec4 0 (k5 * s.fRec4 1 + k9) }
  let s := { s with
    fRec2 := Function.update s.fRec2 0
      (fTemp0 - (s.fRec3 0 * s.fRec2 1 + s.fRec4 0 * s.fRec2 2)) }
  let s := { s with fRec5 := Function.update s.fRec5 0 (k5 * s.fRec5 1 + k10) }
  let s := { s with
    fRec1 := Function.update s.fRec1 0
      ((s.fRec0 0 * s.fRec2 1 + s.fRec5 0 * (s.fRec2 0 + s.fRec2 2))
        - (s.fRec3 0 * s.fRec1 1 + s.fRec4 0 * s.fRec1 2)) }
  let output0 := Function.update output0 i
    (s.fRec0 0 * s.fRec1 1 + s.fRec5 0 * (s.fRec1 0 + s.fRec1 2))
  let s := { s with fRec0 := Function.update s.fRec0 1 (s.fRec0 0) }
  let s := { s with fRec3 := Function.update s.fRec3 1 (s.fRec3 0) }
  let s := { s with fRec4 := Function.update s.fRec4 1 (s.fRec4 0) }
  let s := { s with fRec2 := Function.update s.fRec2 2 (s.fRec2 1) }
  let s := { s with fRec2 := Function.update s.fRec2 1 (s.fRec2 0) }
  let s := { s with fRec5 := Function.update s.fRec5 1 (s.fRec5 0) }
  let s := { s with fRec1 := Function.update s.fRec1 2 (s.fRec1 1) }
  let s := { s with fRec1 := Function.update s.fRec1 1 (s.fRec1 0) }
  (s, output0)

/-- The method `compute` (sfzLpf4p.cxx, lines 144-176): the state of the kernel
and of the output memory after the call.  `input0` and `output0` are the
memory behind `inputs[0]` and `outputs[0]`, indexed by frame; the loop runs for
`i = 0, ..., count - 1` and not at all when `count ≤ 0`. -/
def compute (M : CMath R) (s : faustLpf4p R) (fSmoothEnable : Bool) (count : Int)
    (input0 output0 : Nat → R) : faustLpf4p R × (Nat → R) :=
  (List.range count.toNat).foldl
    (computeFrame (fSlow5 s fSmoothEnable) (fSlow7 M s fSmoothEnable)
      (fSlow8 M s fSmoothEnable) (fSlow9 M s fSmoothEnable) (fSlow10 M s fSmoothEnable) input0)
    (s, output0)

/-- Assignment of the two controls, the public members `fCutoff` and `fQ`. -/
def setControls (s : faustLpf4p R) (cutoff q : R) : faustLpf4p R :=
  { s with fCutoff := cutoff, fQ := q }

end faustLpf4p

/-! ## The SIMD fallbacks (`SIMDDummy.cpp`) -/

/-- The scalar forms (`SIMD = false`) of the kernels, which `SIMDHelpers.h`
defines and the embedded files only call.  A span is read as the list of its
elements; each kernel maps the contents of its arguments to the contents of its
output spans after the call, together with its return value when it has one. -/
structure ScalarKernels (α : Type) where
  readInterleaved : List α → List α → List α → List α × List α
  writeInterleaved : List α → List α → List α → List α
  fill : List α → α → List α
  exp : List α → List α → List α
  log : List α → List α → List α
  sin : List α → List α → List α
  cos : List α → List α → List α
  applyGain : α → List α → List α → List α
  applyGainSpan : List α → List α → List α → List α
  loopingSFZIndex : List α → List α → List α → List Int → α → α → α →
    List α × List α × List Int
  linearRamp : List α → α → α → List α × α
  multiplicativeRamp : List α → α → α → List α × α
  add : List α → List α → List α

/-! The `<float, true>` specialisations of `SIMDDummy.cpp`, in file order. -/

namespace SIMDDummy

variable {α : Type}

/-- Specialisation `readInterleaved<float, true>` (lines 4-8). -/
def readInterleaved (K : ScalarKernels α) (input outputLeft outputRight : List α) :
    List α × List α :=
  K.readInterleaved input outputLeft outputRight

/-- Specialisation `writeInterleaved<float, true>` (lines 10-14). -/
def writeInterleaved (K : ScalarKernels α) (inputLeft inputRight output : List α) : List α :=
  K.writeInterleaved inputLeft inputRight output

/-- Specialisation `fill<float, true>` (lines 22-26). -/
def fill (K : ScalarKernels α) (output : List α) (value : α) : List α :=
  K.fill output value

/-- Specialisation `exp<float, true>` (lines 28-32). -/
def exp (K : ScalarKernels α) (input output : List α) : List α :=
  K.exp input output

/-- Specialisation `log<float, true>` (lines 34-38). -/
def log (K : ScalarKernels α) (input output : List α) : List α :=
  K.log input output

/-- Specialisation `sin<float, true>` (lines 40-44). -/
def sin (K : ScalarKernels α) (input output : List α) : List α :=
  K.sin input output

/-- Specialisation `cos<float, true>` (lines 46-50). -/
def cos (K : ScalarKernels α) (input output : List α) : List α :=
  K.cos input output

/-- Specialisation `applyGain<float, true>` with a single gain (lines 52-56). -/
def applyGain (K : ScalarKernels α) (gain : α) (input output : List α) : List α :=
  K.applyGain gain input output

/-- Specialisation `applyGain<float, true>` with a span of gains (lines 58-62). -/
def applyGainSpan (K : ScalarKernels α) (gain input output : List α) : List α :=
  K.applyGainSpan gain input output

/-- Specialisation `loopingSFZIndex<float, true>` (lines 64-68). -/
def loopingSFZIndex (K : ScalarKernels α) (jumps leftCoeff rightCoeff : List α)
    (indices : List Int) (floatIndex loopEnd loopStart : α) : List α × List α × List Int :=
  K.loopingSFZIndex jumps leftCoeff rightCoeff indices floatIndex loopEnd loopStart

/-- Specialisation `linearRamp<float, true>` (lines 70-74). -/
def linearRamp (K : ScalarKernels α) (output : List α) (start step : α) : List α × α :=
  K.linearRamp output start step

/-- Specialisation `multiplicativeRamp<float, true>` (lines 76-80). -/
def multiplicativeRamp (K : ScalarKernels α) (output : List α) (start step : α) : List α × α :=
  K.multiplicativeRamp output start step

/-- Specialisation `add<float, true>` (lines 82-86). -/
def add (K : ScalarKernels α) (input output : List α) : List α :=
  K.add input output

end SIMDDummy

/-! ## A concrete environment -/

/-- Modelled from the spec: the key hash (`hash`, a compile-time string hash
declared outside the embedded files).  This instance is the FNV-1a fold with the
32-bit basis and prime carried out in 64-bit unsigned arithmetic. -/
def fnv1a (s : String) : Nat :=
  s.toList.foldl (fun h c => ((h ^^^ c.toNat) * 0x01000193) % 2 ^ 64) 0x811C9DC5

/-- A filter-type lookup knowing a single name. -/
def sampleTypeFromName (name : String) : Option FilterType :=
  if name = "lpf_4p" then some FilterType.kFilterLpf4p else none

/-- The number written by a list of decimal digits, most significant first;
`acc` is the number read so far. -/
def readDigits : List Char → Nat → Option Nat
  | [], acc => some acc
  | c :: cs, acc => if c.isDigit then readDigits cs (10 * acc + (c.toNat - 48)) else none

/-- A value reader that accepts plain integer literals, with an optional
leading minus sign. -/
def sampleReadValue (value : String) : Option ℚ :=
  match value.toList with
  | [] => none
  | ['-'] => none
  | '-' :: cs => (readDigits cs 0).map (fun n => -(n : ℚ))
  | cs => (readDigits cs 0).map (fun n => (n : ℚ))

/-- A concrete environment over `ℚ` on which the definitions can be run. -/
def sampleEnv : fx.Env ℚ where
  hash := fnv1a
  typeFromName := sampleTypeFromName
  readValue := sampleReadValue
  filterCutoffRange := ⟨0, 20000⟩
  filterResonanceRange := ⟨0, 96⟩
  filterGainRange := ⟨-96, 96⟩
  description := ⟨FilterType.kFilterNone, 0, 0, 0⟩

/-- A cascade that only records the calls made on it, oldest first. -/
def logCascade : fx.Cascade (List String) ℚ where
  fresh := []
  setType := fun st _ => st ++ ["setType"]
  setChannels := fun st _ => st ++ ["setChannels"]
  init := fun st _ => st ++ ["init"]
  clear := fun st => st ++ ["clear"]
  prepare := fun st _ _ _ => st ++ ["prepare"]
  processModulated := fun st inputs _ _ _ _ _ => (st ++ ["processModulated"], inputs)

/-- A scratch buffer of eight frames holding arbitrary samples. -/
def sampleBuffer : fx.AudioBuffer ℚ where
  numFrames := 8
  samples := fun ch i => (ch : ℚ) + (i : ℚ)

/-- A filter effect with the default description of `sampleEnv`, a
default-constructed cascade and the scratch buffer `sampleBuffer`. -/
def sampleFilter : fx.Filter (List String) ℚ :=
  ⟨sampleEnv.description, logCascade.fresh, sampleBuffer⟩

/-- Rational stand-ins for the `<cmath>` functions, to run the kernel on `ℚ`. -/
def sampleMath : CMath ℚ where
  exp := fun x => 1 + x
  sin := fun x => x
  cos := fun x => 1 - x * x / 2
  pow := fun _ y => 1 + y

/-- A kernel state with every member 0. -/
def zeroState (R : Type) [LinearOrderedField R] : faustLpf4p R :=
  ⟨0, 0, 0, 0, 0, 0, fun _ => 0, fun _ => 0, fun _ => 0, fun _ => 0, fun _ => 0, fun _ => 0⟩

/-- A kernel state at 44100 Hz with cutoff 1000 and Q 3, whose coefficient
smoothers are running and whose signal delay lines are zero. -/
def quietState : faustLpf4p ℚ :=
  { faustLpf4p.setControls (faustLpf4p.instanceConstants sampleMath (zeroState ℚ) 44100) 1000 3 with
    fRec0 := ![1, 2]
    fRec3 := ![3, 4]
    fRec4 := ![5, 6]
    fRec5 := ![7, 8] }

/-- Makes the opcode `key=value`, hashing the key with `fnv1a` (the keys used
below contain no digit, so the key is its own letters-only portion). -/
def mkOpcode (key value : String) : Opcode :=
  ⟨key, value, fnv1a key⟩

end sfz

/-! ## Properties of `Filter::makeInstance` -/

namespace sfz
namespace fx

theorem Env.caseLabels_ne {R : Type} (E : Env R) (h : E.caseLabelsDistinct) :
    E.hash "filter_cutoff" ≠ E.hash "filter_resonance"
      ∧ E.hash "filter_cutoff" ≠ E.hash "filter_type"
      ∧ E.hash "filter_cutoff" ≠ E.hash "sfizz:filter_gain"
      ∧ E.hash "filter_resonance" ≠ E.hash "filter_type"
      ∧ E.hash "filter_resonance" ≠ E.hash "sfizz:filter_gain"
      ∧ E.hash "filter_type" ≠ E.hash "sfizz:filter_gain" := by
  unfold Env.caseLabelsDistinct at h
  simp only [List.nodup_cons, List.mem_cons, List.mem_singleton, not_or, List.not_mem_nil,
    not_false_eq_true, and_true, List.nodup_nil] at h
  obtain ⟨⟨a, b, c⟩, ⟨d, e⟩, f⟩ := h
  exact ⟨a, b, c, d, e, f⟩

section makeInstance

variable {R : Type} [LinearOrder R]

theorem makeInstanceStep_of_not_recognised (E : Env R) (desc : FilterDescription R)
    (opc : Opcode) (h : recognisedKey E opc = false) : makeInstanceStep E desc opc = desc := by
  simp only [recognisedKey, Bool.or_eq_false_iff, decide_eq_false_iff_not] at h
  obtain ⟨⟨⟨h1, h2⟩, h3⟩, h4⟩ := h
  simp [makeInstanceStep, h1, h2, h3, h4]

theorem foldl_makeInstanceStep_filter (E : Env R) (members : List Opcode)
    (desc : FilterDescription R) :
    members.foldl (makeInstanceStep E) desc
      = (members.filter (recognisedKey E)).foldl (makeInstanceStep E) desc := by
  induction members generalizing desc with
  | nil => rfl
  | cons opc rest ih =>
    cases hk : recognisedKey E opc with
    | true => simp only [List.foldl_cons, List.filter_cons, hk, if_true]; exact ih _
    | false =>
      simp only [List.foldl_cons, List.filter_cons, hk, makeInstanceStep_of_not_recognised E _ _ hk]
      simpa using ih desc

theorem foldl_makeInstanceStep_unrecognised (E : Env R) (members : List Opcode)
    (desc : FilterDescription R) :
    (members.filter (fun opc => !recognisedKey E opc)).foldl (makeInstanceStep E) desc = desc := by
  induction members generalizing desc with
  | nil => rfl
  | cons opc rest ih =>
    cases hk : recognisedKey E opc with
    | true => simpa [List.filter_cons, hk] using ih desc
    | false =>
      simp only [List.filter_cons, hk, Bool.not_false, if_true, List.foldl_cons,
        makeInstanceStep_of_not_recognised E _ _ hk]
      exact ih desc

/-- An opcode that does not carry the `filter_type` hash leaves the type of the
description alone. -/
theorem makeInstanceStep_type (E : Env R) (desc : FilterDescription R) (opc : Opcode)
    (h : opc.lettersOnlyHash ≠ E.hash "filter_type") :
    (makeInstanceStep E desc opc).type = desc.type := by
  unfold makeInstanceStep
  split_ifs <;> rfl

theorem foldl_makeInstanceStep_type (E : Env R) (post : List Opcode)
    (desc : FilterDescription R)
    (h : ∀ o ∈ post, o.lettersOnlyHash ≠ E.hash "filter_type") :
    (post.foldl (makeInstanceStep E) desc).type = desc.type := by
  induction post generalizing desc with
  | nil => rfl
  | cons opc rest ih =>
    rw [List.foldl_cons, ih _ (fun o ho => h o (List.mem_cons_of_mem _ ho)),
      makeInstanceStep_type E desc opc (h opc (List.mem_cons_self _ _))]

/-- An opcode that does not carry the `sfizz:filter_gain` hash leaves the gain
of the description alone. -/
theorem makeInstanceStep_gain (E : Env R) (desc : FilterDescription R) (opc : Opcode)
    (h : opc.lettersOnlyHash ≠ E.hash "sfizz:filter_gain") :
    (makeInstanceStep E desc opc).gain = desc.gain := by
  unfold makeInstanceStep
  split_ifs
  · rfl
  · rfl
  · split <;> rfl
  · rfl

theorem foldl_makeInstanceStep_gain (E : Env R) (post : List Opcode)
    (desc : FilterDescription R)
    (h : ∀ o ∈ post, o.lettersOnlyHash ≠ E.hash "sfizz:filter_gain") :
    (post.foldl (makeInstanceStep E) desc).gain = desc.gain := by
  induction post generalizing desc with
  | nil => rfl
  | cons opc rest ih =>
    rw [List.foldl_cons, ih _ (fun o ho => h o (List.mem_cons_of_mem _ ho)),
      makeInstanceStep_gain E desc opc (h opc (List.mem_cons_self _ _))]

theorem Range.clamp_contained (r : Range R) (h : r.start ≤ r.stop) (v : R) :
    r.containsWithEnd (r.clamp v) := by
  unfold Range.containsWithEnd Range.clamp
  exact ⟨le_max_left _ _, max_le h (min_le_right _ _)⟩

theorem setValueFromOpcode_contained (readValue : String → Option R) (opc : Opcode)
    (target : R) (r : Range R) (h : r.start ≤ r.stop) (ht : r.containsWithEnd target) :
    r.containsWithEnd (setValueFromOpcode readValue opc target r) := by
  unfold setValueFromOpcode
  split
  · exact Range.clamp_contained r h _
  · exact ht

theorem makeInstanceStep_inRanges (E : Env R) (hE : E.rangesOrdered)
    (desc : FilterDescription R) (opc : Opcode) (h : inRanges E desc) :
    inRanges E (makeInstanceStep E desc opc) := by
  obtain ⟨hc, hr, hg⟩ := h
  obtain ⟨oc, or, og⟩ := hE
  unfold makeInstanceStep
  split_ifs
  · exact ⟨setValueFromOpcode_contained _ _ _ _ oc hc, hr, hg⟩
  · exact ⟨hc, setValueFromOpcode_contained _ _ _ _ or hr, hg⟩
  · split <;> exact ⟨hc, hr, hg⟩
  · exact ⟨hc, hr, setValueFromOpcode_contained _ _ _ _ og hg⟩
  · exact ⟨hc, hr, hg⟩

theorem foldl_makeInstanceStep_inRanges (E : Env R) (hE : E.rangesOrdered)
    (members : List Opcode) (desc : FilterDescription R) (h : inRanges E desc) :
    inRanges E (members.foldl (makeInstanceStep E) desc) := by
  induction members generalizing desc with
  | nil => exact h
  | cons opc rest ih => exact ih _ (makeInstanceStep_inRanges E hE desc opc h)

/-- C1: when the last opcode carrying the `filter_type` hash has a value that
`typeFromName` does not recognise, `makeInstance` returns a `Filter` whose
description has type `kFilterNone`, and the cascade was set to that type. -/
theorem makeInstance_unknown_type {σ : Type} (E : Env R) (C : Cascade σ R)
    (tempBuffer : AudioBuffer R) (pre post : List Opcode) (opc : Opcode)
    (hlabels : E.caseLabelsDistinct)
    (hkey : opc.lettersOnlyHash = E.hash "filter_type")
    (hunknown : E.typeFromName opc.value = none)
    (hlast : ∀ o ∈ post, o.lettersOnlyHash ≠ E.hash "filter_type") :
    ∃ f : Filter σ R, Filter.makeInstance E C tempBuffer (pre ++ opc :: post) = f
      ∧ f._desc.type = FilterType.kFilterNone
      ∧ f._filter = C.setChannels (C.setType C.fresh FilterType.kFilterNone) 2 := by
  have hstep : ∀ d : FilterDescription R,
      (makeInstanceStep E d opc).type = FilterType.kFilterNone := by
    intro d
    obtain ⟨-, hct, -, hrt, -, -⟩ := E.caseLabels_ne hlabels
    have h1 : E.hash "filter_type" ≠ E.hash "filter_cutoff" := hct.symm
    have h2 : E.hash "filter_type" ≠ E.hash "filter_resonance" := hrt.symm
    simp [makeInstanceStep, hkey, h1, h2, hunknown]
  have htype : (makeInstanceDesc E (pre ++ opc :: post)).type = FilterType.kFilterNone := by
    unfold makeInstanceDesc
    rw [List.foldl_append, List.foldl_cons, foldl_makeInstanceStep_type E post _ hlast]
    exact hstep _
  refine ⟨_, rfl, htype, ?_⟩
  simp only [Filter.makeInstance, Filter.construct, htype]

/-- C4: opcodes whose hash is none of the four `case` labels are ignored: the
description (and the `Filter`) built from a list equals the one built from the
list without them, and a list holding only such opcodes gives the default
description. -/
theorem makeInstance_ignores_unknown_keys {σ : Type} (E : Env R) (C : Cascade σ R)
    (tempBuffer : AudioBuffer R) (members : List Opcode) :
    makeInstanceDesc E members = makeInstanceDesc E (members.filter (recognisedKey E))
      ∧ Filter.makeInstance E C tempBuffer members
          = Filter.makeInstance E C tempBuffer (members.filter (recognisedKey E))
      ∧ makeInstanceDesc E (members.filter (fun opc => !recognisedKey E opc)) = E.description := by
  have h := foldl_makeInstanceStep_filter E members E.description
  refine ⟨h, ?_, foldl_makeInstanceStep_unrecognised E members E.description⟩
  unfold Filter.makeInstance makeInstanceDesc
  rw [← h]

/-- C5 (as amended): the extension key is `sfizz:filter_gain`.  When the last
opcode carrying the hash of `sfizz:filter_gain` has a value that reads as the
number `v`, the gain of the description is `v` clamped to the gain range. -/
theorem makeInstance_sfizz_filter_gain (E : Env R) (pre post : List Opcode) (opc : Opcode)
    (v : R) (hlabels : E.caseLabelsDistinct)
    (hkey : opc.lettersOnlyHash = E.hash "sfizz:filter_gain")
    (hvalue : E.readValue opc.value = some v)
    (hlast : ∀ o ∈ post, o.lettersOnlyHash ≠ E.hash "sfizz:filter_gain") :
    (makeInstanceDesc E (pre ++ opc :: post)).gain = E.filterGainRange.clamp v := by
  obtain ⟨-, -, hcg, -, hrg, htg⟩ := E.caseLabels_ne hlabels
  have h1 : E.hash "sfizz:filter_gain" ≠ E.hash "filter_cutoff" := hcg.symm
  have h2 : E.hash "sfizz:filter_gain" ≠ E.hash "filter_resonance" := hrg.symm
  have h3 : E.hash "sfizz:filter_gain" ≠ E.hash "filter_type" := htg.symm
  unfold makeInstanceDesc
  rw [List.foldl_append, List.foldl_cons, foldl_makeInstanceStep_gain E post _ hlast]
  simp [makeInstanceStep, hkey, h1, h2, h3, setValueFromOpcode, hvalue]

/-- C6: when the three ranges are ordered and the default description lies in
them, the description of the `Filter` that `makeInstance` returns has its
cutoff, resonance and gain inside their ranges, whatever the opcodes. -/
theorem makeInstance_inRanges {σ : Type} (E : Env R) (C : Cascade σ R)
    (tempBuffer : AudioBuffer R) (members : List Opcode)
    (hordered : E.rangesOrdered) (hdefault : inRanges E E.description) :
    E.filterCutoffRange.containsWithEnd (Filter.makeInstance E C tempBuffer members)._desc.cutoff
      ∧ E.filterResonanceRange.containsWithEnd
          (Filter.makeInstance E C tempBuffer members)._desc.resonance
      ∧ E.filterGainRange.containsWithEnd
          (Filter.makeInstance E C tempBuffer members)._desc.gain :=
  foldl_makeInstanceStep_inRanges E hordered members E.description hdefault

end makeInstance

end fx
end sfz

/-! ## Properties of `Filter::process`, `Filter::clear` and `Filter::setSampleRate` -/

namespace sfz
namespace fx

theorem fill_first_getSpan {R : Type} (b : AudioBuffer R) (channelIndex nframes : Nat)
    (value : R) (h : nframes ≤ b.numFrames) :
    (Span.first (b.getSpan channelIndex) nframes).map (fun span => fill span value)
      = some (List.replicate nframes value) := by
  have hlen : (b.getSpan channelIndex).length = b.numFrames := by
    simp [AudioBuffer.getSpan]
  have hle : nframes ≤ (b.getSpan channelIndex).length := hlen ▸ h
  simp only [Span.first, hle, if_true, Option.map_some', fill, Option.some.injEq]
  apply List.ext_get
  · simp [hle]
  · intro i h1 h2
    simp

/-- C3: for `nframes` not larger than the frame count of the scratch buffer,
`Filter::process` returns, the three spans it hands to `processModulated` are
`nframes` copies of the description's cutoff, resonance and gain, and the
description is unchanged. -/
theorem process_fills_modulation_spans {σ R : Type} (C : Cascade σ R) (f : Filter σ R)
    (inputs outputs : Nat → Nat → R) (nframes : Nat)
    (h : nframes ≤ f._tempBuffer.numFrames) :
    f.modulationSpans nframes
        = some (List.replicate nframes f._desc.cutoff,
            List.replicate nframes f._desc.resonance, List.replicate nframes f._desc.gain)
      ∧ ∃ r, Filter.process C f inputs outputs nframes = some r
          ∧ r.1._desc = f._desc
          ∧ (r.1._filter, r.2)
              = C.processModulated f._filter inputs outputs
                  (List.replicate nframes f._desc.cutoff)
                  (List.replicate nframes f._desc.resonance)
                  (List.replicate nframes f._desc.gain) nframes := by
  have hspans : f.modulationSpans nframes
      = some (List.replicate nframes f._desc.cutoff,
          List.replicate nframes f._desc.resonance, List.replicate nframes f._desc.gain) := by
    have h0 := fill_first_getSpan f._tempBuffer 0 nframes f._desc.cutoff h
    have h1 := fill_first_getSpan f._tempBuffer 1 nframes f._desc.resonance h
    have h2 := fill_first_getSpan f._tempBuffer 2 nframes f._desc.gain h
    simp only [Option.map_eq_some'] at h0 h1 h2
    obtain ⟨a0, e0, r0⟩ := h0
    obtain ⟨a1, e1, r1⟩ := h1
    obtain ⟨a2, e2, r2⟩ := h2
    simp [Filter.modulationSpans, e0, e1, e2, r0, r1, r2]
  refine ⟨hspans, ?_⟩
  simp [Filter.process, hspans]

end fx

/-! ## Properties of the low-pass-4-pole kernel -/

namespace faustLpf4p

variable {R : Type} [LinearOrderedField R]

theorem foldl_update_zero {n : Nat} (l : List (Fin n)) (rec : Fin n → R) (j : Fin n) :
    l.foldl (fun r i => Function.update r i 0) rec j = if j ∈ l then 0 else rec j := by
  induction l generalizing rec with
  | nil => simp
  | cons i rest ih =>
    rw [List.foldl_cons, ih]
    by_cases hj : j ∈ rest
    · simp [hj]
    · by_cases hji : j = i
      · subst hji
        simp [hj]
      · simp [hj, hji, Function.update_noteq hji]

theorem clearLoop_eq {n : Nat} (rec : Fin n → R) : clearLoop rec = fun _ => 0 := by
  funext j
  simp [clearLoop, foldl_update_zero, List.mem_finRange]

end faustLpf4p

namespace faustLpf4p

variable {R : Type} [LinearOrderedField R]

/-- One frame of `compute` on silence: zero delay lines and a zero input sample
give zero delay lines again and a zero output sample. -/
theorem computeFrame_silence (k5 k7 k8 k9 k10 : R) (input0 : Nat → R)
    (st : faustLpf4p R × (Nat → R)) (i : Nat)
    (h1 : ∀ l, st.1.fRec1 l = 0) (h2 : ∀ l, st.1.fRec2 l = 0) (hin : input0 i = 0) :
    (∀ l, (computeFrame k5 k7 k8 k9 k10 input0 st i).1.fRec1 l = 0)
      ∧ (∀ l, (computeFrame k5 k7 k8 k9 k10 input0 st i).1.fRec2 l = 0)
      ∧ (computeFrame k5 k7 k8 k9 k10 input0 st i).2 = Function.update st.2 i 0 := by
  have e1 : st.1.fRec1 = fun _ => 0 := funext h1
  have e2 : st.1.fRec2 = fun _ => 0 := funext h2
  refine ⟨?_, ?_, ?_⟩
  · intro l
    fin_cases l <;> simp [computeFrame, e1, e2, hin, Function.update]
  · intro l
    fin_cases l <;> simp [computeFrame, e1, e2, hin, Function.update]
  · simp [computeFrame, e1, e2, hin, Function.update]

theorem foldl_computeFrame_silence (k5 k7 k8 k9 k10 : R) (input0 : Nat → R) (n : Nat)
    (st : faustLpf4p R × (Nat → R))
    (h1 : ∀ l, st.1.fRec1 l = 0) (h2 : ∀ l, st.1.fRec2 l = 0)
    (hin : ∀ i, i < n → input0 i = 0) :
    (∀ l, ((List.range n).foldl (computeFrame k5 k7 k8 k9 k10 input0) st).1.fRec1 l = 0)
      ∧ (∀ l, ((List.range n).foldl (computeFrame k5 k7 k8 k9 k10 input0) st).1.fRec2 l = 0)
      ∧ ∀ i, ((List.range n).foldl (computeFrame k5 k7 k8 k9 k10 input0) st).2 i
          = if i < n then 0 else st.2 i := by
  induction n with
  | zero => simp [h1, h2]
  | succ n ih =>
    obtain ⟨a1, a2, a3⟩ := ih (fun i hi => hin i (Nat.lt_succ_of_lt hi))
    rw [List.range_succ, List.foldl_append, List.foldl_cons, List.foldl_nil]
    obtain ⟨b1, b2, b3⟩ := computeFrame_silence k5 k7 k8 k9 k10 input0
      ((List.range n).foldl (computeFrame k5 k7 k8 k9 k10 input0) st) n a1 a2
      (hin n (Nat.lt_succ_self n))
    refine ⟨b1, b2, ?_⟩
    intro i
    rw [b3]
    by_cases hi : i = n
    · subst hi
      simp
    · rw [Function.update_noteq hi, a3 i]
      by_cases hlt : i < n
      · simp [hlt, Nat.lt_succ_of_lt hlt]
      · have : ¬ i < n + 1 := fun h => hlt (lt_of_le_of_ne (Nat.lt_succ_iff.mp h) hi)
        simp [hlt, this]

/-- C10: silence in, silence out.  If `fRec1` and `fRec2` are all zero on
entry and `input0[i] = 0` for every `i < count`, then after `compute`
`output0[i] = 0` for every `i < count`, `fRec1` and `fRec2` are all zero, and
the output memory from index `count` on is untouched; this holds whatever the
values of the coefficients and smoothers. -/
theorem compute_silence (M : CMath R) (s : faustLpf4p R) (fSmoothEnable : Bool) (count : Int)
    (input0 output0 : Nat → R)
    (h1 : ∀ l, s.fRec1 l = 0) (h2 : ∀ l, s.fRec2 l = 0)
    (hin : ∀ i : Nat, (i : Int) < count → input0 i = 0) :
    (∀ i : Nat, (i : Int) < count →
        (compute M s fSmoothEnable count input0 output0).2 i = 0)
      ∧ (∀ l, (compute M s fSmoothEnable count input0 output0).1.fRec1 l = 0)
      ∧ (∀ l, (compute M s fSmoothEnable count input0 output0).1.fRec2 l = 0)
      ∧ (∀ i : Nat, count ≤ (i : Int) →
          (compute M s fSmoothEnable count input0 output0).2 i = output0 i) := by
  have hlt : ∀ i : Nat, i < count.toNat ↔ (i : Int) < count := by
    intro i
    omega
  obtain ⟨a1, a2, a3⟩ := foldl_computeFrame_silence (fSlow5 s fSmoothEnable)
    (fSlow7 M s fSmoothEnable) (fSlow8 M s fSmoothEnable) (fSlow9 M s fSmoothEnable)
    (fSlow10 M s fSmoothEnable) input0 count.toNat (s, output0) h1 h2
    (fun i hi => hin i ((hlt i).mp hi))
  refine ⟨?_, a1, a2, ?_⟩
  · intro i hi
    have := a3 i
    rw [if_pos ((hlt i).mpr hi)] at this
    exact this
  · intro i hi
    have := a3 i
    rw [if_neg (fun h => absurd ((hlt i).mp h) (not_lt.mpr hi))] at this
    exact this

end faustLpf4p

namespace faustLpf4p

/-- The angle `fSlow0` after `instanceConstants` when the cutoff is `θ`
multiplied by `fConst0 / twoPi`, for `θ ≥ 0`. -/
theorem fSlow0_of_angle (M : CMath ℝ) (s0 : faustLpf4p ℝ) (sr : Int) (θ q : ℝ) (hθ : 0 ≤ θ) :
    fSlow0 (setControls (instanceConstants M s0 sr)
      (θ * (instanceConstants M s0 sr).fConst0 / twoPi) q) = θ := by
  have hF : (1 : ℝ) ≤ min 192000 (max 1 (sr : ℝ)) := le_min (by norm_num) (le_max_left _ _)
  have hF0 : (0 : ℝ) < min 192000 (max 1 (sr : ℝ)) := lt_of_lt_of_le one_pos hF
  have h2 : (0 : ℝ) < (twoPi : ℝ) := by unfold twoPi; norm_num
  have hc : 0 ≤ θ * min 192000 (max 1 (sr : ℝ)) / twoPi :=
    div_nonneg (mul_nonneg hθ hF0.le) h2.le
  show twoPi / min 192000 (max 1 (sr : ℝ)) * max 0 (θ * min 192000 (max 1 (sr : ℝ)) / twoPi) = θ
  rw [max_eq_right hc]
  field_simp
  ring

/-- The inner divisor is the floor 0.001 when Q is -100. -/
theorem qDivisor_floor (M : CMath ℝ) (hpow : ∀ x y, M.pow x y = x ^ y) (s : faustLpf4p ℝ)
    (hq : s.fQ = -100) : qDivisor M s = 0.001 := by
  unfold qDivisor
  rw [hpow, hq]
  apply max_eq_left
  have h3 : (10 : ℝ) ^ (0.050000000000000003 * (-100) : ℝ) ≤ (10 : ℝ) ^ (-3 : ℝ) :=
    Real.rpow_le_rpow_of_exponent_le (by norm_num) (by norm_num)
  have h4 : (10 : ℝ) ^ (-3 : ℝ) = 0.001 := by
    rw [Real.rpow_neg (by norm_num)]
    norm_num
  linarith

/-- C9: over the reals, with `std::sin` the sine and `std::pow` the real power,
a cutoff between 0 and half of `fConst0` gives an angle `fSlow0` in [0, π], an
inner divisor of at least 0.001, `fSlow2 ≥ 0` and `fSlow3 ≥ 1`; above
`fConst0 / 2` there are cutoffs and Q values with `fSlow3 < 0` and with
`fSlow3 = 0`. -/
theorem compute_divisors (M : CMath ℝ) (hsin : M.sin = Real.sin)
    (hpow : ∀ x y, M.pow x y = x ^ y) (s0 : faustLpf4p ℝ) (sr : Int) (cutoff q : ℝ)
    (h0 : 0 ≤ cutoff) (hny : cutoff ≤ (instanceConstants M s0 sr).fConst0 / 2) :
    (0 ≤ fSlow0 (setControls (instanceConstants M s0 sr) cutoff q)
        ∧ fSlow0 (setControls (instanceConstants M s0 sr) cutoff q) ≤ Real.pi)
      ∧ 0.001 ≤ qDivisor M (setControls (instanceConstants M s0 sr) cutoff q)
      ∧ 0 ≤ fSlow2 M (setControls (instanceConstants M s0 sr) cutoff q)
      ∧ 1 ≤ fSlow3 M (setControls (instanceConstants M s0 sr) cutoff q)
      ∧ (∃ c q', (instanceConstants M s0 sr).fConst0 / 2 < c
          ∧ fSlow3 M (setControls (instanceConstants M s0 sr) c q') < 0)
      ∧ (∃ c q', (instanceConstants M s0 sr).fConst0 / 2 < c
          ∧ fSlow3 M (setControls (instanceConstants M s0 sr) c q') = 0) := by
  have hF : (1 : ℝ) ≤ (instanceConstants M s0 sr).fConst0 := by
    show (1 : ℝ) ≤ min 192000 (max 1 (sr : ℝ))
    exact le_min (by norm_num) (le_max_left _ _)
  have hF0 : (0 : ℝ) < (instanceConstants M s0 sr).fConst0 := lt_of_lt_of_le one_pos hF
  have h2pos : (0 : ℝ) < (twoPi : ℝ) := by unfold twoPi; norm_num
  have h2pi : (twoPi : ℝ) / 2 < Real.pi := by
    have := Real.pi_gt_d20
    unfold twoPi
    norm_num at this ⊢
    linarith
  have hangle0 : 0 ≤ fSlow0 (setControls (instanceConstants M s0 sr) cutoff q) := by
    show 0 ≤ twoPi / (instanceConstants M s0 sr).fConst0 * max 0 cutoff
    exact mul_nonneg (div_nonneg h2pos.le hF0.le) (le_max_left _ _)
  have hanglepi : fSlow0 (setControls (instanceConstants M s0 sr) cutoff q) ≤ Real.pi := by
    show twoPi / (instanceConstants M s0 sr).fConst0 * max 0 cutoff ≤ Real.pi
    rw [max_eq_right h0]
    have h1 : twoPi / (instanceConstants M s0 sr).fConst0 * cutoff
        ≤ twoPi / (instanceConstants M s0 sr).fConst0
          * ((instanceConstants M s0 sr).fConst0 / 2) :=
      mul_le_mul_of_nonneg_left hny (div_nonneg h2pos.le hF0.le)
    have h3 : twoPi / (instanceConstants M s0 sr).fConst0
        * ((instanceConstants M s0 sr).fConst0 / 2) = (twoPi : ℝ) / 2 := by
      field_simp
    linarith
  have hdiv : ∀ s : faustLpf4p ℝ, (0.001 : ℝ) ≤ qDivisor M s := fun s => le_max_left _ _
  have hs2 : 0 ≤ fSlow2 M (setControls (instanceConstants M s0 sr) cutoff q) := by
    unfold fSlow2
    rw [hsin]
    have hsinnn := Real.sin_nonneg_of_nonneg_of_le_pi hangle0 hanglepi
    have hd : (0 : ℝ) ≤ qDivisor M (setControls (instanceConstants M s0 sr) cutoff q) :=
      le_trans (by norm_num) (hdiv _)
    exact mul_nonneg (by norm_num) (div_nonneg hsinnn hd)
  have habove : ∀ θ : ℝ, (twoPi : ℝ) / 2 < θ →
      (instanceConstants M s0 sr).fConst0 / 2
        < θ * (instanceConstants M s0 sr).fConst0 / twoPi := by
    intro θ hθ
    rw [div_lt_div_iff₀ (by norm_num) h2pos]
    nlinarith
  refine ⟨⟨hangle0, hanglepi⟩, hdiv _, hs2, ?_, ?_, ?_⟩
  · unfold fSlow3
    linarith
  · have hθ : (0 : ℝ) ≤ Real.pi / 2 + Real.pi := by positivity
    refine ⟨(Real.pi / 2 + Real.pi) * (instanceConstants M s0 sr).fConst0 / twoPi, -100,
      habove _ (by linarith [Real.pi_pos]), ?_⟩
    unfold fSlow3 fSlow2
    rw [fSlow0_of_angle M s0 sr _ _ hθ, qDivisor_floor M hpow _ rfl, hsin, Real.sin_add_pi,
      Real.sin_pi_div_two]
    norm_num
  · have hθ : (0 : ℝ) ≤ Real.arcsin 0.002 + Real.pi :=
      add_nonneg (Real.arcsin_nonneg.mpr (by norm_num)) Real.pi_pos.le
    refine ⟨(Real.arcsin 0.002 + Real.pi) * (instanceConstants M s0 sr).fConst0 / twoPi, -100,
      habove _ (by linarith [Real.arcsin_nonneg.mpr (show (0 : ℝ) ≤ 0.002 by norm_num)]), ?_⟩
    unfold fSlow3 fSlow2
    rw [fSlow0_of_angle M s0 sr _ _ hθ, qDivisor_floor M hpow _ rfl, hsin, Real.sin_add_pi,
      Real.sin_arcsin (by norm_num) (by norm_num)]
    norm_num

end faustLpf4p

/-- C7: `instanceClear` sets every element of the six delay lines to 0 and
leaves `fSampleRate`, `fConst0`, `fConst1`, `fConst2`, `fCutoff` and `fQ` as
they were; `Filter::clear` clears the cascade, then prepares it with the
description's cutoff, resonance and gain, and keeps the description. -/
theorem clear_zeroes_delay_lines {R σ : Type} [LinearOrderedField R] (s : faustLpf4p R)
    (C : fx.Cascade σ R) (f : fx.Filter σ R) :
    ((∀ l, (faustLpf4p.instanceClear s).fRec0 l = 0)
        ∧ (∀ l, (faustLpf4p.instanceClear s).fRec3 l = 0)
        ∧ (∀ l, (faustLpf4p.instanceClear s).fRec4 l = 0)
        ∧ (∀ l, (faustLpf4p.instanceClear s).fRec5 l = 0)
        ∧ (∀ l, (faustLpf4p.instanceClear s).fRec2 l = 0)
        ∧ (∀ l, (faustLpf4p.instanceClear s).fRec1 l = 0))
      ∧ ((faustLpf4p.instanceClear s).fSampleRate = s.fSampleRate
        ∧ (faustLpf4p.instanceClear s).fConst0 = s.fConst0
        ∧ (faustLpf4p.instanceClear s).fConst1 = s.fConst1
        ∧ (faustLpf4p.instanceClear s).fConst2 = s.fConst2
        ∧ (faustLpf4p.instanceClear s).fCutoff = s.fCutoff
        ∧ (faustLpf4p.instanceClear s).fQ = s.fQ)
      ∧ (fx.Filter.clear C f)._filter
          = C.prepare (C.clear f._filter) f._desc.cutoff f._desc.resonance f._desc.gain
      ∧ (fx.Filter.clear C f)._desc = f._desc := by
  refine ⟨?_, ⟨rfl, rfl, rfl, rfl, rfl, rfl⟩, rfl, rfl⟩
  simp [faustLpf4p.instanceClear, faustLpf4p.clearLoop_eq]

/-- C8: after `init(sr)` the kernel state depends only on `sr`:
`fSampleRate = sr`, `fConst0 = min(192000, max(1, sr))` (so between 1 and
192000), `fConst1` is the literal 6.2831853071795862 (2π to within 1e-15)
divided by `fConst0`, `fCutoff = 440`, `fQ = 0` and every delay-line element
is 0; `Filter::setSampleRate` initialises the cascade, then prepares it with the
description's cutoff, resonance and gain. -/
theorem init_depends_only_on_sample_rate {R σ : Type} [LinearOrderedField R] (M : CMath R)
    (s s' : faustLpf4p R) (sr : Int) (C : fx.Cascade σ R) (f : fx.Filter σ R) (rate : R) :
    faustLpf4p.init M s sr = faustLpf4p.init M s' sr
      ∧ (faustLpf4p.init M s sr).fSampleRate = sr
      ∧ (faustLpf4p.init M s sr).fConst0 = min 192000 (max 1 (sr : R))
      ∧ 1 ≤ (faustLpf4p.init M s sr).fConst0
      ∧ (faustLpf4p.init M s sr).fConst0 ≤ 192000
      ∧ (faustLpf4p.init M s sr).fConst1
          = faustLpf4p.twoPi / (faustLpf4p.init M s sr).fConst0
      ∧ |(faustLpf4p.twoPi : ℝ) - 2 * Real.pi| < 1 / 10 ^ 15
      ∧ (faustLpf4p.init M s sr).fConst2
          = M.exp (0 - 1000 / (faustLpf4p.init M s sr).fConst0)
      ∧ (faustLpf4p.init M s sr).fCutoff = 440
      ∧ (faustLpf4p.init M s sr).fQ = 0
      ∧ ((∀ l, (faustLpf4p.init M s sr).fRec0 l = 0)
        ∧ (∀ l, (faustLpf4p.init M s sr).fRec3 l = 0)
        ∧ (∀ l, (faustLpf4p.init M s sr).fRec4 l = 0)
        ∧ (∀ l, (faustLpf4p.init M s sr).fRec5 l = 0)
        ∧ (∀ l, (faustLpf4p.init M s sr).fRec2 l = 0)
        ∧ (∀ l, (faustLpf4p.init M s sr).fRec1 l = 0))
      ∧ (fx.Filter.setSampleRate C f rate)._filter
          = C.prepare (C.init f._filter rate) f._desc.cutoff f._desc.resonance f._desc.gain
      ∧ (fx.Filter.setSampleRate C f rate)._desc = f._desc := by
  refine ⟨?_, rfl, rfl, ?_, ?_, rfl, ?_, rfl, rfl, rfl, ?_, rfl, rfl⟩
  · simp [faustLpf4p.init, faustLpf4p.instanceInit, faustLpf4p.instanceClear,
      faustLpf4p.clearLoop_eq, faustLpf4p.instanceResetUserInterface,
      faustLpf4p.instanceConstants]
  · show (1 : R) ≤ min 192000 (max 1 (sr : R))
    exact le_min (by norm_num) (le_max_left _ _)
  · show min (192000 : R) (max 1 (sr : R)) ≤ 192000
    exact min_le_left _ _
  · have h1 := Real.pi_gt_d20
    have h2 := Real.pi_lt_d20
    unfold faustLpf4p.twoPi
    rw [abs_lt]
    constructor <;> norm_num at h1 h2 ⊢ <;> linarith
  · simp [faustLpf4p.init, faustLpf4p.instanceInit, faustLpf4p.instanceClear,
      faustLpf4p.clearLoop_eq]

/-- C2: each `<float, true>` specialisation of `SIMDDummy.cpp` leaves in its
output spans, and returns, exactly what the scalar form does on the same
arguments. -/
theorem simd_dummy_eq_scalar {α : Type} (K : ScalarKernels α) (a b c : List α)
    (indices : List Int) (x y z : α) :
    SIMDDummy.readInterleaved K a b c = K.readInterleaved a b c
      ∧ SIMDDummy.writeInterleaved K a b c = K.writeInterleaved a b c
      ∧ SIMDDummy.fill K a x = K.fill a x
      ∧ SIMDDummy.exp K a b = K.exp a b
      ∧ SIMDDummy.log K a b = K.log a b
      ∧ SIMDDummy.sin K a b = K.sin a b
      ∧ SIMDDummy.cos K a b = K.cos a b
      ∧ SIMDDummy.applyGain K x a b = K.applyGain x a b
      ∧ SIMDDummy.applyGainSpan K a b c = K.applyGainSpan a b c
      ∧ SIMDDummy.loopingSFZIndex K a b c indices x y z
          = K.loopingSFZIndex a b c indices x y z
      ∧ SIMDDummy.linearRamp K a x y = K.linearRamp a x y
      ∧ SIMDDummy.multiplicativeRamp K a x y = K.multiplicativeRamp a x y
      ∧ SIMDDummy.add K a b = K.add a b :=
  ⟨rfl, rfl, rfl, rfl, rfl, rfl, rfl, rfl, rfl, rfl, rfl, rfl, rfl⟩

end sfz

open sfz sfz.fx

/-- Witness of C1: `filter_type=unknown_value` after a known type and before a
cutoff. -/
theorem makeInstance_unknown_type_witness :
    sampleEnv.caseLabelsDistinct
      ∧ (mkOpcode "filter_type" "unknown_value").lettersOnlyHash = sampleEnv.hash "filter_type"
      ∧ sampleEnv.typeFromName (mkOpcode "filter_type" "unknown_value").value = none
      ∧ ∃ f : Filter (List String) ℚ,
          Filter.makeInstance sampleEnv logCascade sampleBuffer
              ([mkOpcode "filter_type" "lpf_4p"] ++ mkOpcode "filter_type" "unknown_value"
                :: [mkOpcode "filter_cutoff" "1000"]) = f
            ∧ f._desc.type = FilterType.kFilterNone
            ∧ f._filter
                = logCascade.setChannels (logCascade.setType logCascade.fresh
                    FilterType.kFilterNone) 2 :=
  ⟨by decide, by decide, by decide,
    makeInstance_unknown_type sampleEnv logCascade sampleBuffer
      [mkOpcode "filter_type" "lpf_4p"] [mkOpcode "filter_cutoff" "1000"]
      (mkOpcode "filter_type" "unknown_value") (by decide) (by decide) (by decide)
      (by decide)⟩

/-- C5, counterexample: the opcode `filter_gain=6`, whose hash is that of
`filter_gain` and whose value reads as 6 (inside the gain range), leaves the
gain at its default 0. -/
theorem makeInstance_filter_gain_not_recognised :
    (mkOpcode "filter_gain" "6").lettersOnlyHash = sampleEnv.hash "filter_gain"
      ∧ sampleEnv.readValue (mkOpcode "filter_gain" "6").value = some 6
      ∧ sampleEnv.filterGainRange.clamp 6 = 6
      ∧ (makeInstanceDesc sampleEnv [mkOpcode "filter_gain" "6"]).gain = 0
      ∧ (makeInstanceDesc sampleEnv [mkOpcode "filter_gain" "6"]).gain ≠ 6 := by
  decide

/-- Witness of C5 (as amended): `sfizz:filter_gain=6` sets the gain to 6. -/
theorem makeInstance_sfizz_filter_gain_witness :
    sampleEnv.caseLabelsDistinct
      ∧ sampleEnv.readValue (mkOpcode "sfizz:filter_gain" "6").value = some 6
      ∧ (makeInstanceDesc sampleEnv
            ([mkOpcode "filter_gain" "3"] ++ mkOpcode "sfizz:filter_gain" "6"
              :: [mkOpcode "filter_cutoff" "1000"])).gain
          = sampleEnv.filterGainRange.clamp 6 :=
  ⟨by decide, by decide,
    makeInstance_sfizz_filter_gain sampleEnv [mkOpcode "filter_gain" "3"]
      [mkOpcode "filter_cutoff" "1000"] (mkOpcode "sfizz:filter_gain" "6") 6
      (by decide) (by decide) (by decide) (by decide)⟩

/-- Witness of C6: out-of-range cutoff, resonance and gain are clamped. -/
theorem makeInstance_inRanges_witness :
    sampleEnv.rangesOrdered ∧ inRanges sampleEnv sampleEnv.description
      ∧ sampleEnv.filterCutoffRange.containsWithEnd
          (Filter.makeInstance sampleEnv logCascade sampleBuffer
            [mkOpcode "filter_cutoff" "60000", mkOpcode "filter_resonance" "-5",
              mkOpcode "sfizz:filter_gain" "200"])._desc.cutoff
      ∧ sampleEnv.filterResonanceRange.containsWithEnd
          (Filter.makeInstance sampleEnv logCascade sampleBuffer
            [mkOpcode "filter_cutoff" "60000", mkOpcode "filter_resonance" "-5",
              mkOpcode "sfizz:filter_gain" "200"])._desc.resonance
      ∧ sampleEnv.filterGainRange.containsWithEnd
          (Filter.makeInstance sampleEnv logCascade sampleBuffer
            [mkOpcode "filter_cutoff" "60000", mkOpcode "filter_resonance" "-5",
              mkOpcode "sfizz:filter_gain" "200"])._desc.gain :=
  ⟨by decide, by decide,
    makeInstance_inRanges sampleEnv logCascade sampleBuffer
      [mkOpcode "filter_cutoff" "60000", mkOpcode "filter_resonance" "-5",
        mkOpcode "sfizz:filter_gain" "200"] (by decide) (by decide)⟩

/-- Witness of C3: five frames out of a scratch buffer of eight. -/
theorem process_fills_modulation_spans_witness :
    (5 : Nat) ≤ sampleBuffer.numFrames
      ∧ sampleFilter.modulationSpans 5
          = some (List.replicate 5 0, List.replicate 5 0, List.replicate 5 0) :=
  ⟨by decide,
    (process_fills_modulation_spans logCascade sampleFilter
      (fun _ _ => 0) (fun _ _ => 0) 5 (by decide)).1⟩

/-- Witness of C10: three frames of silence through `quietState`, with the
smoothers running; the output memory held 7 everywhere. -/
theorem compute_silence_witness :
    (∀ l, quietState.fRec1 l = 0) ∧ (∀ l, quietState.fRec2 l = 0)
      ∧ (faustLpf4p.compute sampleMath quietState true 3 (fun _ => 0) (fun _ => 7)).2 2 = 0
      ∧ (faustLpf4p.compute sampleMath quietState true 3 (fun _ => 0) (fun _ => 7)).2 3 = 7 :=
  ⟨by decide, by decide,
    (faustLpf4p.compute_silence sampleMath quietState true 3 (fun _ => 0) (fun _ => 7)
      (by decide) (by decide) (fun _ _ => rfl)).1 2 (by decide),
    (faustLpf4p.compute_silence sampleMath quietState true 3 (fun _ => 0) (fun _ => 7)
      (by decide) (by decide) (fun _ _ => rfl)).2.2.2 3 (by decide)⟩

/-- Witness of C9: sample rate 44100, cutoff 1000, Q 0. -/
theorem compute_divisors_witness :
    (0 : ℝ) ≤ 1000
      ∧ (1000 : ℝ) ≤ (faustLpf4p.instanceConstants
          (⟨Real.exp, Real.sin, Real.cos, fun x y => x ^ y⟩ : CMath ℝ) (zeroState ℝ) 44100).fConst0 / 2
      ∧ 1 ≤ faustLpf4p.fSlow3 (⟨Real.exp, Real.sin, Real.cos, fun x y => x ^ y⟩ : CMath ℝ)
          (faustLpf4p.setControls (faustLpf4p.instanceConstants
            (⟨Real.exp, Real.sin, Real.cos, fun x y => x ^ y⟩ : CMath ℝ) (zeroState ℝ) 44100)
            1000 0) :=
  ⟨by norm_num, by simp [faustLpf4p.instanceConstants]; norm_num,
    (faustLpf4p.compute_divisors ⟨Real.exp, Real.sin, Real.cos, fun x y => x ^ y⟩ rfl
      (fun _ _ => rfl) (zeroState ℝ) 44100 1000 0 (by norm_num)
      (by simp [faustLpf4p.instanceConstants]; norm_num)).2.2.2.1⟩
